import Mathlib

/-!
Verification of the transform-and-model core of `src/advance_etl.py`
(a single-batch ETL pipeline: quality partition, product-dimension
derivation with surrogate keys, fact-table join, and sink loading).

The embedding models a pandas `DataFrame` of input rows as a `List Record`.
Nullable columns (`customer_name`, and `price`, which can be `NaN` after
CSV parsing) are `Option`-typed; pandas semantics are kept:
`isnull()` is `Option.isNone`, a `NaN <= 0` comparison is `False`, and
`drop_duplicates` / `merge` treat `NaN` keys as equal to each other.
-/

/-- One row of the raw batch, with the columns read from the source file.
`customer_name` is nullable; `price` may be missing (`NaN`). -/
structure Record where
  order_id : Int
  customer_name : Option String
  product : String
  category : String
  price : Option Int
  quantity : Int
  transaction_date : String
deriving DecidableEq, Repr

/-- A row of the product dimension (`dim_product`): the natural-key tuple
plus the assigned surrogate key. -/
structure DimRow where
  product : String
  category : String
  price : Option Int
  product_id : Nat
deriving DecidableEq, Repr

/-- A row of the fact table (`fact_sales`), after the column projection at
line 80 of the source. `product_id` is `none` when the left merge misses
(pandas would emit `NaN`); `total_amount` is `none` when `price` was `NaN`. -/
structure FactRow where
  order_id : Int
  transaction_date : String
  customer_name : Option String
  product_id : Option Nat
  quantity : Int
  total_amount : Option Int
deriving DecidableEq, Repr

/-- `bad_data_mask` of line 53:
`(df['customer_name'].isnull()) | (df['price'] <= 0)`.
A missing (`NaN`) price compares as `False` against `0`, as in pandas. -/
def bad_data_mask (r : Record) : Bool :=
  r.customer_name.isNone ||
    (match r.price with
     | some p => decide (p ≤ 0)
     | none => false)

/-- `df_quarantine = df[bad_data_mask]` (line 56). -/
def df_quarantine (df : List Record) : List Record :=
  df.filter bad_data_mask

/-- `df_clean = df[~bad_data_mask]` (line 57). -/
def df_clean (df : List Record) : List Record :=
  df.filter fun r => !bad_data_mask r

/-- The natural-key tuple `(product, category, price)` of a record. -/
def recordKey (r : Record) : String × String × Option Int :=
  (r.product, r.category, r.price)

/-- The natural-key tuple of a dimension row. -/
def dimKey (d : DimRow) : String × String × Option Int :=
  (d.product, d.category, d.price)

/-- `drop_duplicates()` with pandas default `keep='first'`: keep the first
occurrence of each value, in order of first occurrence (each head is kept
and all its later copies are removed). -/
def drop_duplicates {α : Type} [DecidableEq α] : List α → List α
  | [] => []
  | a :: as => a :: (drop_duplicates as).filter fun b => b ≠ a

/-- Lines 71-73:
`dim_product = df_clean[['product','category','price']].drop_duplicates().reset_index(drop=True)`
followed by `dim_product['product_id'] = dim_product.index + 1`. -/
def dim_product (clean : List Record) : List DimRow :=
  (drop_duplicates (clean.map recordKey)).enum.map fun ik =>
    ⟨ik.2.1, ik.2.2.1, ik.2.2.2, ik.1 + 1⟩

/-- Signed 64-bit wrap-around: the value congruent to `x` modulo `2^64`
lying in `[-2^63, 2^63)`, as numpy int64 arithmetic produces on
overflow. -/
def int64wrap (x : Int) : Int :=
  (x + 2 ^ 63) % 2 ^ 64 - 2 ^ 63

/-- `total_amount = price * quantity` (line 65), computed on `df_clean`
before the merge, from the record's own price, in its integer mode: when
the raw price column holds no NaN both columns are numpy int64 and the
product silently wraps modulo `2^64`.  When the price column holds NaN it
is float64 instead: a NaN price gives a NaN total (`none` here), and a
present price agrees with the int64 value whenever the exact product is
within `±2^53` (float64 is exact there); beyond that float64 rounds,
which this integer model does not represent. -/
def total_amount (r : Record) : Option Int :=
  r.price.map fun p => int64wrap (p * r.quantity)

/-- The rows a single clean record contributes to
`df_clean.merge(dim_product, on=['product','category','price'], how='left')`
(line 77), already projected to the fact columns of line 80: one output row
per dimension row with an equal key, or a single row with a null
`product_id` when no dimension row matches. -/
def mergeMatches (dim : List DimRow) (r : Record) : List FactRow :=
  match dim.filter fun d => dimKey d = recordKey r with
  | [] => [⟨r.order_id, r.transaction_date, r.customer_name, none,
            r.quantity, total_amount r⟩]
  | ms => ms.map fun d =>
      ⟨r.order_id, r.transaction_date, r.customer_name, some d.product_id,
        r.quantity, total_amount r⟩

/-- Lines 77-80: the left merge of the clean batch with the dimension,
projected to the fact schema. Row order follows the clean batch, as a
pandas left merge preserves left-table order. -/
def fact_sales (clean : List Record) (dim : List DimRow) : List FactRow :=
  clean.flatMap (mergeMatches dim)

/-- `transform_and_model_data` (lines 48-83), restricted to its pure
data-flow result `(dim_product, fact_sales)`.  The quarantine-sink write
that happens inside the same function is modelled separately in
`transform_run` below. -/
def transform_and_model_data (df : List Record) : List DimRow × List FactRow :=
  let clean := df_clean df
  let dim := dim_product clean
  (dim, fact_sales clean dim)

/-! ### The orchestration layer: sinks, failures, and the run. -/

/-- The externally visible sink state: the quarantine CSV file and the two
warehouse tables. `none` means never written in this run. -/
structure SinkState where
  quarantine_file : Option (List Record)
  dim_product_table : Option (List DimRow)
  fact_sales_table : Option (List FactRow)
deriving DecidableEq, Repr

/-- The environment of one run: what the source read yields (`none` when
`pd.read_csv` raises), and whether each sink write succeeds. -/
structure Env where
  source : Option (List Record)
  quarantineOk : Bool
  dimOk : Bool
  factOk : Bool
deriving DecidableEq, Repr

/-- `extract_data` (lines 38-46): returns the batch, or `None` when the
read raises (the exception is caught and logged). -/
def extract_data (env : Env) : Option (List Record) :=
  env.source

/-- `transform_and_model_data` with its quarantine-sink side effect
(lines 60-62): the quarantine write happens only for a nonempty quarantine
batch, is not wrapped in any `try`, so a failing write raises out of the
function (`Except.error`). -/
def transform_run (env : Env) (df : List Record) (s : SinkState) :
    Except Unit (SinkState × List DimRow × List FactRow) := do
  let bad := df_quarantine df
  let s1 ←
    if bad.isEmpty then pure s
    else if env.quarantineOk then
      pure { s with quarantine_file := some bad }
    else throw ()
  let (dim, fact) := transform_and_model_data df
  pure (s1, dim, fact)

/-- `load_data` (lines 85-101): writes `dim_product` then `fact_sales`
inside one `try`; any exception is caught and logged (lines 100-101), so
the function always returns normally. A failure of the first write leaves
both tables unwritten; a failure of the second leaves the first write in
place. -/
def load_data (env : Env) (dim : List DimRow) (fact : List FactRow)
    (s : SinkState) : Except Unit SinkState :=
  if env.dimOk then
    if env.factOk then
      Except.ok { s with dim_product_table := some dim,
                         fact_sales_table := some fact }
    else
      Except.ok { s with dim_product_table := some dim }
  else
    Except.ok s

/-- The `__main__` run (lines 107-111), after the dummy-data generation:
extract; if the source read failed (`None`) do nothing further; otherwise
transform (which may raise on a quarantine write failure) and load. -/
def run_pipeline (env : Env) (s : SinkState) : Except Unit SinkState :=
  match extract_data env with
  | none => Except.ok s
  | some df => do
    let (s1, dim, fact) ← transform_run env df s
    load_data env dim fact s1

/-! ### Library lemmas about `drop_duplicates` (pandas `keep='first'`). -/

/-- `drop_duplicates` keeps exactly the values of its input. -/
theorem mem_drop_duplicates {α : Type} [DecidableEq α] (x : α) :
    ∀ l : List α, x ∈ drop_duplicates l ↔ x ∈ l := by
  intro l
  induction l with
  | nil => simp [drop_duplicates]
  | cons a as ih =>
    rw [drop_duplicates, List.mem_cons, List.mem_filter, ih, List.mem_cons]
    by_cases hxa : x = a <;> simp [hxa]

/-- `drop_duplicates` leaves no duplicates. -/
theorem nodup_drop_duplicates {α : Type} [DecidableEq α] :
    ∀ l : List α, (drop_duplicates l).Nodup := by
  intro l
  induction l with
  | nil => simp [drop_duplicates]
  | cons a as ih =>
    rw [drop_duplicates]
    refine List.nodup_cons.mpr ⟨?_, ih.filter _⟩
    intro hmem
    have h2 := (List.mem_filter.mp hmem).2
    simp at h2

/-- Filtering a list does not change the relative order of first
occurrences of values that survive the filter. -/
theorem indexOf_filter_mono {α : Type} [DecidableEq α] (p : α → Bool) :
    ∀ (l : List α) (a b : α), a ∈ l.filter p → b ∈ l.filter p →
      List.indexOf a (l.filter p) < List.indexOf b (l.filter p) →
      List.indexOf a l < List.indexOf b l := by
  intro l
  induction l with
  | nil => intro a b ha _ _; simp at ha
  | cons c cs ih =>
    intro a b ha hb hlt
    by_cases hpc : p c
    · rw [List.filter_cons_of_pos hpc] at ha hb hlt
      by_cases hac : a = c
      · subst hac
        rw [List.indexOf_cons_self] at hlt ⊢
        have hba : b ≠ a := by
          intro hba; subst hba; simp [List.indexOf_cons_self] at hlt
        rw [List.indexOf_cons_ne _ (Ne.symm hba)]
        exact Nat.succ_pos _
      · have hbc : b ≠ c := by
          intro h; subst h
          rw [List.indexOf_cons_self, List.indexOf_cons_ne _ (Ne.symm hac)] at hlt
          exact Nat.not_lt_zero _ hlt
        have ha2 : a ∈ cs.filter p := by
          rcases List.mem_cons.mp ha with h | h
          · exact absurd h hac
          · exact h
        have hb2 : b ∈ cs.filter p := by
          rcases List.mem_cons.mp hb with h | h
          · exact absurd h hbc
          · exact h
        rw [List.indexOf_cons_ne _ (Ne.symm hac), List.indexOf_cons_ne _ (Ne.symm hbc)] at hlt
        have h3 := ih a b ha2 hb2 (Nat.succ_lt_succ_iff.mp hlt)
        rw [List.indexOf_cons_ne _ (Ne.symm hac), List.indexOf_cons_ne _ (Ne.symm hbc)]
        exact Nat.succ_lt_succ h3
    · rw [List.filter_cons_of_neg hpc] at ha hb hlt
      have hac : a ≠ c := by
        intro h; subst h
        exact hpc (List.of_mem_filter ha)
      have hbc : b ≠ c := by
        intro h; subst h
        exact hpc (List.of_mem_filter hb)
      rw [List.indexOf_cons_ne _ (Ne.symm hac), List.indexOf_cons_ne _ (Ne.symm hbc)]
      exact Nat.succ_lt_succ (ih a b ha hb hlt)

/-- `drop_duplicates` lists values in order of their first occurrence: if
`a` comes before `b` in the output, the first occurrence of `a` in the
input comes before the first occurrence of `b`. -/
theorem drop_duplicates_indexOf_mono {α : Type} [DecidableEq α] :
    ∀ (l : List α) (a b : α), a ∈ drop_duplicates l → b ∈ drop_duplicates l →
      List.indexOf a (drop_duplicates l) < List.indexOf b (drop_duplicates l) →
      List.indexOf a l < List.indexOf b l := by
  intro l
  induction l with
  | nil => intro a b ha _ _; simp [drop_duplicates] at ha
  | cons c cs ih =>
    intro a b ha hb hlt
    rw [drop_duplicates] at ha hb hlt
    by_cases hac : a = c
    · subst hac
      rw [List.indexOf_cons_self] at hlt ⊢
      have hba : b ≠ a := by
        intro hba; subst hba; simp [List.indexOf_cons_self] at hlt
      rw [List.indexOf_cons_ne _ (Ne.symm hba)]
      exact Nat.succ_pos _
    · have hbc : b ≠ c := by
        intro h; subst h
        rw [List.indexOf_cons_self, List.indexOf_cons_ne _ (Ne.symm hac)] at hlt
        exact Nat.not_lt_zero _ hlt
      have ha2 : a ∈ (drop_duplicates cs).filter fun x => x ≠ c := by
        rcases List.mem_cons.mp ha with h | h
        · exact absurd h hac
        · exact h
      have hb2 : b ∈ (drop_duplicates cs).filter fun x => x ≠ c := by
        rcases List.mem_cons.mp hb with h | h
        · exact absurd h hbc
        · exact h
      rw [List.indexOf_cons_ne _ (Ne.symm hac), List.indexOf_cons_ne _ (Ne.symm hbc)] at hlt
      have h1 := indexOf_filter_mono _ (drop_duplicates cs) a b ha2 hb2
        (Nat.succ_lt_succ_iff.mp hlt)
      have h2 := ih a b (List.mem_of_mem_filter ha2) (List.mem_of_mem_filter hb2) h1
      rw [List.indexOf_cons_ne _ (Ne.symm hac), List.indexOf_cons_ne _ (Ne.symm hbc)]
      exact Nat.succ_lt_succ h2

/-! ### The quality-partition rule. -/

/-- The boolean mask of line 53 holds exactly when `customer_name` is
null/missing or `price` is a present value `≤ 0`. -/
theorem bad_data_mask_eq_true (r : Record) :
    bad_data_mask r = true ↔
      r.customer_name = none ∨ ∃ p, r.price = some p ∧ p ≤ 0 := by
  unfold bad_data_mask
  cases hp : r.price <;> cases hc : r.customer_name <;> simp [hp, hc]

/-- Rows 101, 103 and 105 of the dummy batch of `generate_dummy_data`,
used as concrete sample inputs. -/
def sampleRow101 : Record :=
  ⟨101, some "Alice", "Laptop", "Electronics", some 1200, 1, "2023-10-01"⟩

/-- Row 103 of the dummy batch: negative price. -/
def sampleRow103 : Record :=
  ⟨103, some "Charlie", "Keyboard", "Accessories", some (-50), 1, "2023-10-01"⟩

/-- Row 105 of the dummy batch: null customer name. -/
def sampleRow105 : Record :=
  ⟨105, none, "Mouse", "Accessories", some 25, 5, "2023-10-02"⟩

/-- **C1**: a record of the input batch lands in the quarantine output iff
its `customer_name` is null/missing or its `price` is a present value
`≤ 0` (so `price = 0` is invalid), and lands in the clean output iff it is
in the batch and that condition fails. The rule only looks at the record
itself, so classification is independent of the rest of the batch. -/
theorem C1_partition_rule (df : List Record) (r : Record) :
    (r ∈ df_quarantine df ↔
        r ∈ df ∧ (r.customer_name = none ∨ ∃ p, r.price = some p ∧ p ≤ 0)) ∧
    (r ∈ df_clean df ↔
        r ∈ df ∧ ¬(r.customer_name = none ∨ ∃ p, r.price = some p ∧ p ≤ 0)) := by
  constructor
  · rw [df_quarantine, List.mem_filter, bad_data_mask_eq_true]
  · rw [df_clean, List.mem_filter]
    have h := bad_data_mask_eq_true r
    constructor
    · rintro ⟨h1, h2⟩
      refine ⟨h1, fun hc => ?_⟩
      rw [h.mpr hc] at h2
      simp at h2
    · rintro ⟨h1, h2⟩
      refine ⟨h1, ?_⟩
      cases hb : bad_data_mask r
      · rfl
      · exact absurd (h.mp hb) h2

/-- **C4**: the partition is total and lossless: the two output lengths
sum to the input length, each record occurs in the two outputs exactly as
often as in the input (no overlap, no omission, duplicates included),
each output preserves the input's relative order (is a sublist), and an
empty batch yields two empty batches. -/
theorem C4_partition_total (df : List Record) (r : Record) :
    (df_clean df).length + (df_quarantine df).length = df.length ∧
    (df_clean df).count r + (df_quarantine df).count r = df.count r ∧
    (df_clean df).Sublist df ∧ (df_quarantine df).Sublist df ∧
    df_clean [] = [] ∧ df_quarantine [] = [] := by
  refine ⟨?_, ?_, List.filter_sublist df, List.filter_sublist df, rfl, rfl⟩
  · have h := List.length_eq_length_filter_add (l := df) bad_data_mask
    rw [df_clean, df_quarantine]
    omega
  · rw [df_clean, df_quarantine]
    cases hb : bad_data_mask r
    · have h1 : (df.filter fun x => !bad_data_mask x).count r = df.count r :=
        List.count_filter (by simp [hb])
      have h2 : (df.filter bad_data_mask).count r = 0 :=
        List.count_eq_zero.mpr fun hmem => by
          have h3 := (List.mem_filter.mp hmem).2
          rw [hb] at h3
          simp at h3
      rw [h1, h2]
      omega
    · have h1 : (df.filter fun x => !bad_data_mask x).count r = 0 :=
        List.count_eq_zero.mpr fun hmem => by
          have h3 := (List.mem_filter.mp hmem).2
          rw [hb] at h3
          simp at h3
      have h2 : (df.filter bad_data_mask).count r = df.count r :=
        List.count_filter hb
      rw [h1, h2]
      omega

/-- **C9**: the partition never mutates or repairs records: both outputs
are sublists of the input (the very same rows, in order), and every row of
the quarantine output and of the clean output is field-for-field identical
to a row of the input batch. -/
theorem C9_partition_no_mutation (df : List Record) :
    (df_quarantine df).Sublist df ∧ (df_clean df).Sublist df ∧
    (∀ r ∈ df_quarantine df, ∃ r0 ∈ df,
      r.order_id = r0.order_id ∧ r.customer_name = r0.customer_name ∧
      r.product = r0.product ∧ r.category = r0.category ∧
      r.price = r0.price ∧ r.quantity = r0.quantity ∧
      r.transaction_date = r0.transaction_date) ∧
    (∀ r ∈ df_clean df, ∃ r0 ∈ df,
      r.order_id = r0.order_id ∧ r.customer_name = r0.customer_name ∧
      r.product = r0.product ∧ r.category = r0.category ∧
      r.price = r0.price ∧ r.quantity = r0.quantity ∧
      r.transaction_date = r0.transaction_date) := by
  refine ⟨List.filter_sublist df, List.filter_sublist df, ?_, ?_⟩ <;>
  · intro r hr
    exact ⟨r, (List.mem_filter.mp hr).1, rfl, rfl, rfl, rfl, rfl, rfl, rfl⟩

/-- Witness for `C9_partition_no_mutation` at the concrete batch
`[sampleRow105]`, whose single row is quarantined unchanged. -/
theorem C9_witness :
    ∃ r0 ∈ [sampleRow105],
      sampleRow105.order_id = r0.order_id ∧
      sampleRow105.customer_name = r0.customer_name ∧
      sampleRow105.product = r0.product ∧
      sampleRow105.category = r0.category ∧
      sampleRow105.price = r0.price ∧
      sampleRow105.quantity = r0.quantity ∧
      sampleRow105.transaction_date = r0.transaction_date :=
  (C9_partition_no_mutation [sampleRow105]).2.2.1 sampleRow105 (by decide)

/-! ### The dimension builder. -/

/-- The key column projection of `dim_product` is exactly the deduplicated
key sequence of the clean batch. -/
theorem dim_product_map_key (clean : List Record) :
    (dim_product clean).map dimKey = drop_duplicates (clean.map recordKey) := by
  rw [dim_product, List.map_map]
  have h : (dimKey ∘ fun ik : Nat × (String × String × Option Int) =>
      (⟨ik.2.1, ik.2.2.1, ik.2.2.2, ik.1 + 1⟩ : DimRow)) = Prod.snd := by
    funext ik; rfl
  rw [h, List.enum_map_snd]

/-- The dimension has one row per deduplicated key. -/
theorem dim_product_length (clean : List Record) :
    (dim_product clean).length =
      (drop_duplicates (clean.map recordKey)).length := by
  simp [dim_product]

/-- The surrogate key of the row at index `i` is `i + 1`. -/
theorem dim_product_getElem_id (clean : List Record) (i : Nat)
    (h : i < (dim_product clean).length) :
    ((dim_product clean).get ⟨i, h⟩).product_id = i + 1 := by
  simp [dim_product, List.get_eq_getElem, List.getElem_map, List.getElem_enum]

/-- The `product_id` column of the dimension is `[1, 2, …, len]`. -/
theorem dim_product_map_id (clean : List Record) :
    (dim_product clean).map (fun d => d.product_id) =
      (List.range (dim_product clean).length).map (fun i => i + 1) := by
  rw [dim_product, List.map_map, List.length_map, List.enum_length]
  have h : ((fun d : DimRow => d.product_id) ∘
      fun ik : Nat × (String × String × Option Int) =>
        (⟨ik.2.1, ik.2.2.1, ik.2.2.2, ik.1 + 1⟩ : DimRow)) =
      (fun i => i + 1) ∘ Prod.fst := by
    funext ik; rfl
  rw [h, ← List.map_map, List.enum_map_fst]

/-- The `BEq` obtained from a `DecidableEq` is lawful. -/
theorem lawfulBEq_of_decidableEq {α : Type} [DecidableEq α] :
    @LawfulBEq α instBEqOfDecidableEq :=
  { eq_of_beq := fun h => of_decide_eq_true h
    rfl := decide_eq_true rfl }

/-- **C2**: the dimension batch built from the valid batch has pairwise
distinct `(product, category, price)` keys; its keys are exactly the keys
occurring in the valid batch; its rows are ordered by first occurrence of
their key in the valid batch; the row at index `i` has
`product_id = i + 1`; and the `product_id` column is exactly
`[1, …, len]` (dense, 1-based, no gaps, no duplicates). -/
theorem C2_dimension (df : List Record) :
    (transform_and_model_data df).1 = dim_product (df_clean df) ∧
    ((dim_product (df_clean df)).map dimKey).Nodup ∧
    (∀ k, k ∈ (dim_product (df_clean df)).map dimKey ↔
      k ∈ (df_clean df).map recordKey) ∧
    (∀ i j (hi : i < (dim_product (df_clean df)).length)
        (hj : j < (dim_product (df_clean df)).length), i < j →
      List.indexOf (dimKey ((dim_product (df_clean df)).get ⟨i, hi⟩))
          ((df_clean df).map recordKey) <
        List.indexOf (dimKey ((dim_product (df_clean df)).get ⟨j, hj⟩))
          ((df_clean df).map recordKey)) ∧
    (∀ i (hi : i < (dim_product (df_clean df)).length),
      ((dim_product (df_clean df)).get ⟨i, hi⟩).product_id = i + 1) ∧
    (dim_product (df_clean df)).map (fun d => d.product_id) =
      (List.range (dim_product (df_clean df)).length).map (fun i => i + 1) := by
  set clean := df_clean df with hclean
  refine ⟨rfl, ?_, ?_, ?_, dim_product_getElem_id clean, dim_product_map_id clean⟩
  · rw [dim_product_map_key]
    exact nodup_drop_duplicates _
  · intro k
    rw [dim_product_map_key, mem_drop_duplicates]
  · intro i j hi hj hij
    have hi' : i < (drop_duplicates (clean.map recordKey)).length := by
      rwa [← dim_product_length]
    have hj' : j < (drop_duplicates (clean.map recordKey)).length := by
      rwa [← dim_product_length]
    have hkey : ∀ m (hm : m < (dim_product clean).length)
        (hm' : m < (drop_duplicates (clean.map recordKey)).length),
        dimKey ((dim_product clean).get ⟨m, hm⟩) =
          (drop_duplicates (clean.map recordKey)).get ⟨m, hm'⟩ := by
      intro m hm hm'
      simp [dim_product, dimKey, List.get_eq_getElem, List.getElem_map,
        List.getElem_enum]
    rw [hkey i hi hi', hkey j hj hj']
    have hnodup := nodup_drop_duplicates (clean.map recordKey)
    have hinst : (instBEqProd : BEq (String × String × Option Int)) =
        instBEqOfDecidableEq :=
      @lawful_beq_subsingleton (String × String × Option Int) instBEqProd
        instBEqOfDecidableEq inferInstance lawfulBEq_of_decidableEq
    simp only [hinst]
    apply drop_duplicates_indexOf_mono (clean.map recordKey)
    · exact List.get_mem _ _ _
    · exact List.get_mem _ _ _
    · have e1 : @List.indexOf _ instBEqOfDecidableEq
          ((drop_duplicates (clean.map recordKey)).get ⟨i, hi'⟩)
          (drop_duplicates (clean.map recordKey)) = i := by
        rw [List.get_eq_getElem]
        exact List.indexOf_getElem hnodup i hi'
      have e2 : @List.indexOf _ instBEqOfDecidableEq
          ((drop_duplicates (clean.map recordKey)).get ⟨j, hj'⟩)
          (drop_duplicates (clean.map recordKey)) = j := by
        rw [List.get_eq_getElem]
        exact List.indexOf_getElem hnodup j hj'
      rw [e1, e2]
      exact hij

/-! ### The fact builder. -/

/-- In a dimension with pairwise distinct keys, the rows matching a
present key form a singleton. -/
theorem filter_key_singleton (dim : List DimRow)
    (hnd : (dim.map dimKey).Nodup) (k : String × String × Option Int)
    (hk : k ∈ dim.map dimKey) :
    ∃ d, dim.filter (fun x => dimKey x = k) = [d] ∧ dimKey d = k ∧ d ∈ dim := by
  induction dim with
  | nil => simp at hk
  | cons d0 ds ih =>
    rw [List.map_cons, List.nodup_cons] at hnd
    obtain ⟨hnotin, hnd2⟩ := hnd
    by_cases hd0 : dimKey d0 = k
    · have hnil : ds.filter (fun x => dimKey x = k) = [] := by
        apply List.filter_eq_nil_iff.mpr
        intro x hx
        simp only [decide_eq_true_eq]
        intro hkey
        exact hnotin (by rw [hd0, ← hkey]; exact List.mem_map_of_mem dimKey hx)
      rw [List.filter_cons_of_pos (by simp [hd0]), hnil]
      exact ⟨d0, rfl, hd0, List.mem_cons_self d0 ds⟩
    · rw [List.filter_cons_of_neg (by simp [hd0])]
      have hk2 : k ∈ ds.map dimKey := by
        rcases List.mem_cons.mp hk with h | h
        · exact absurd h.symm hd0
        · exact h
      obtain ⟨d, hf, hkey, hmem⟩ := ih hnd2 hk2
      exact ⟨d, hf, hkey, List.mem_cons_of_mem d0 hmem⟩

/-- When exactly one dimension row matches the record's key, the merge
emits exactly one fact row carrying that row's surrogate key. -/
theorem mergeMatches_eq_of_filter (dim : List DimRow) (r : Record) (d : DimRow)
    (h : dim.filter (fun x => dimKey x = recordKey r) = [d]) :
    mergeMatches dim r = [⟨r.order_id, r.transaction_date, r.customer_name,
      some d.product_id, r.quantity, total_amount r⟩] := by
  unfold mergeMatches
  rw [h]
  rfl

/-- A `flatMap` whose body yields singletons is a `map`. -/
theorem flatMap_eq_map_of_forall_singleton {α β : Type} (l : List α)
    (f : α → List β) (g : α → β) (h : ∀ a ∈ l, f a = [g a]) :
    l.flatMap f = l.map g := by
  induction l with
  | nil => rfl
  | cons a as ih =>
    rw [List.flatMap_cons, h a (List.mem_cons_self a as), List.map_cons,
      ih fun x hx => h x (List.mem_cons_of_mem a hx), List.singleton_append]

/-- The one fact row the merge produces for a record: the closed form of
`mergeMatches` used to state positional properties of the fact batch. -/
def theFactRow (dim : List DimRow) (r : Record) : FactRow :=
  match dim.filter fun d => dimKey d = recordKey r with
  | [] => ⟨r.order_id, r.transaction_date, r.customer_name, none,
           r.quantity, total_amount r⟩
  | d :: _ => ⟨r.order_id, r.transaction_date, r.customer_name,
               some d.product_id, r.quantity, total_amount r⟩

/-- Every clean record's key matches a unique dimension row, and
`theFactRow` is built from it. -/
theorem theFactRow_spec (clean : List Record) (r : Record) (hr : r ∈ clean) :
    ∃ d, (dim_product clean).filter (fun x => dimKey x = recordKey r) = [d] ∧
      d ∈ dim_product clean ∧ dimKey d = recordKey r ∧
      theFactRow (dim_product clean) r =
        ⟨r.order_id, r.transaction_date, r.customer_name, some d.product_id,
          r.quantity, total_amount r⟩ := by
  have hk : recordKey r ∈ (dim_product clean).map dimKey := by
    rw [dim_product_map_key, mem_drop_duplicates]
    exact List.mem_map_of_mem recordKey hr
  have hnd : ((dim_product clean).map dimKey).Nodup := by
    rw [dim_product_map_key]
    exact nodup_drop_duplicates _
  obtain ⟨d, hf, hkey, hmem⟩ := filter_key_singleton _ hnd _ hk
  refine ⟨d, hf, hmem, hkey, ?_⟩
  unfold theFactRow
  rw [hf]

/-- On a dimension derived from the same clean batch, the left merge is a
per-record `map`: one fact row per clean record. -/
theorem fact_sales_eq_map (clean : List Record) :
    fact_sales clean (dim_product clean) =
      clean.map (theFactRow (dim_product clean)) := by
  apply flatMap_eq_map_of_forall_singleton
  intro r hr
  obtain ⟨d, hf, _, _, hrow⟩ := theFactRow_spec clean r hr
  rw [mergeMatches_eq_of_filter _ _ _ hf, hrow]

/-- **C3**: the fact batch has exactly one row per valid record (no
fan-out, no drops), and each fact row's `product_id` is the surrogate key
of exactly one dimension row — the one whose `(product, category, price)`
key equals the source record's (the left join never misses and never
duplicates). -/
theorem C3_fact_join (df : List Record) :
    (transform_and_model_data df).2.length = (df_clean df).length ∧
    ∀ (i : Nat) (r : Record), (df_clean df)[i]? = some r →
      ∃ f : FactRow, (transform_and_model_data df).2[i]? = some f ∧
        ∃! d, d ∈ (transform_and_model_data df).1 ∧
          dimKey d = recordKey r ∧ f.product_id = some d.product_id := by
  have hfact : (transform_and_model_data df).2 =
      (df_clean df).map (theFactRow (dim_product (df_clean df))) :=
    fact_sales_eq_map _
  constructor
  · rw [hfact, List.length_map]
  · intro i r hir
    have hr : r ∈ df_clean df := List.getElem?_mem hir
    obtain ⟨d, hf, hdmem, hdkey, hrow⟩ := theFactRow_spec (df_clean df) r hr
    refine ⟨theFactRow (dim_product (df_clean df)) r, ?_, d,
      ⟨hdmem, hdkey, by rw [hrow]⟩, ?_⟩
    · rw [hfact, List.getElem?_map, hir]
      rfl
    · rintro d' ⟨hd'mem, hd'key, _⟩
      have hd'f : d' ∈ (dim_product (df_clean df)).filter
          (fun x => dimKey x = recordKey r) :=
        List.mem_filter.mpr ⟨hd'mem, by simp [hd'key]⟩
      rw [hf] at hd'f
      simpa using hd'f

/-- Whatever the join lookup returns, the fact row's non-key fields come
from the source record, and `total_amount` is the pre-join column of
line 65. -/
theorem theFactRow_fields (dim : List DimRow) (r : Record) :
    (theFactRow dim r).order_id = r.order_id ∧
    (theFactRow dim r).transaction_date = r.transaction_date ∧
    (theFactRow dim r).customer_name = r.customer_name ∧
    (theFactRow dim r).quantity = r.quantity ∧
    (theFactRow dim r).total_amount = total_amount r := by
  unfold theFactRow
  cases dim.filter fun d => dimKey d = recordKey r <;>
    exact ⟨rfl, rfl, rfl, rfl, rfl⟩

/-- Within the signed 64-bit range the wrap is the identity. -/
theorem int64wrap_eq_self (x : Int) (h1 : -(2 ^ 63) ≤ x) (h2 : x < 2 ^ 63) :
    int64wrap x = x := by
  unfold int64wrap
  have e63 : (2 : Int) ^ 63 = 9223372036854775808 := by norm_num
  have e64 : (2 : Int) ^ 64 = 18446744073709551616 := by norm_num
  rw [e63] at h1 h2
  rw [e63, e64, Int.emod_eq_of_lt (by omega) (by omega)]
  omega

/-- **C5 (amended)**: the fact row produced for the `i`-th valid record
carries `total_amount = price × quantity` of that record, taken from the
record's own (pre-join) price column of line 65, never re-derived from
the dimension row — but computed in numpy's wrapping signed 64-bit
integer arithmetic at best, not exactly: whenever the exact product lies
in `[-2^63, 2^63)` the value is the exact product with no drift, and
outside that range it silently wraps. -/
theorem C5_total_amount (df : List Record) (i : Nat) (r : Record) (p : Int)
    (hir : (df_clean df)[i]? = some r) (hp : r.price = some p) :
    ∃ f : FactRow, (transform_and_model_data df).2[i]? = some f ∧
      f.total_amount = total_amount r ∧
      f.total_amount = some (int64wrap (p * r.quantity)) ∧
      (-(2 ^ 63) ≤ p * r.quantity → p * r.quantity < 2 ^ 63 →
        f.total_amount = some (p * r.quantity)) ∧
      f.order_id = r.order_id ∧ f.quantity = r.quantity := by
  have hfact : (transform_and_model_data df).2 =
      (df_clean df).map (theFactRow (dim_product (df_clean df))) :=
    fact_sales_eq_map _
  obtain ⟨h1, _, _, h4, h5⟩ := theFactRow_fields (dim_product (df_clean df)) r
  refine ⟨theFactRow (dim_product (df_clean df)) r, ?_, h5, ?_, ?_, h1, h4⟩
  · rw [hfact, List.getElem?_map, hir]
    rfl
  · rw [h5, total_amount, hp]
    rfl
  · intro hlo hhi
    rw [h5, total_amount, hp]
    show some (int64wrap (p * r.quantity)) = some (p * r.quantity)
    rw [int64wrap_eq_self _ hlo hhi]

/-- **C6**: the transform-and-model stage is deterministic — it is a pure
function of the input batch, so two runs on the same records in the same
order return identical dimension and fact batches. -/
theorem C6_deterministic (df : List Record)
    (out1 out2 : List DimRow × List FactRow)
    (h1 : out1 = transform_and_model_data df)
    (h2 : out2 = transform_and_model_data df) :
    out1.1 = out2.1 ∧ out1.2 = out2.2 := by
  subst h1 h2
  exact ⟨rfl, rfl⟩

/-- Witness for `C6_deterministic`: two evaluations on the example batch
of §8 coincide. -/
theorem C6_witness :
    (transform_and_model_data [sampleRow101, sampleRow103, sampleRow105]).1 =
      (transform_and_model_data [sampleRow101, sampleRow103, sampleRow105]).1 ∧
    (transform_and_model_data [sampleRow101, sampleRow103, sampleRow105]).2 =
      (transform_and_model_data [sampleRow101, sampleRow103, sampleRow105]).2 :=
  C6_deterministic [sampleRow101, sampleRow103, sampleRow105] _ _ rfl rfl

/-- **C10**: a record whose `price` is missing (`NaN`) but whose
`customer_name` is present is classified valid — a missing price does not
satisfy the `price <= 0` test — so it reaches the clean batch, its key
enters the dimension, and it gets a fact row with a resolved
`product_id`. -/
theorem C10_missing_price_valid (df : List Record) (r : Record)
    (hmem : r ∈ df) (hname : r.customer_name.isSome = true)
    (hprice : r.price = none) :
    r ∈ df_clean df ∧
    recordKey r ∈ (transform_and_model_data df).1.map dimKey ∧
    ∃ f ∈ (transform_and_model_data df).2,
      f.order_id = r.order_id ∧ f.product_id.isSome = true := by
  have hmask : bad_data_mask r = false := by
    unfold bad_data_mask
    rw [hprice]
    cases hc : r.customer_name
    · rw [hc] at hname
      simp at hname
    · rfl
  have hclean : r ∈ df_clean df :=
    List.mem_filter.mpr ⟨hmem, by rw [hmask]; rfl⟩
  refine ⟨hclean, ?_, ?_⟩
  · rw [show (transform_and_model_data df).1 = dim_product (df_clean df) from rfl,
      dim_product_map_key, mem_drop_duplicates]
    exact List.mem_map_of_mem recordKey hclean
  · obtain ⟨d, hf, hdmem, hdkey, hrow⟩ := theFactRow_spec (df_clean df) r hclean
    refine ⟨theFactRow (dim_product (df_clean df)) r, ?_, ?_, ?_⟩
    · rw [show (transform_and_model_data df).2 =
          fact_sales (df_clean df) (dim_product (df_clean df)) from rfl,
        fact_sales_eq_map]
      exact List.mem_map_of_mem _ hclean
    · rw [hrow]
    · rw [hrow]
      rfl

/-- Row 102 of the dummy batch. -/
def sampleRow102 : Record :=
  ⟨102, some "Bob", "Mouse", "Accessories", some 25, 2, "2023-10-01"⟩

/-- Row 104 of the dummy batch. -/
def sampleRow104 : Record :=
  ⟨104, some "David", "Monitor", "Electronics", some 300, 2, "2023-10-02"⟩

/-- Row 106 of the dummy batch: same product key as row 101. -/
def sampleRow106 : Record :=
  ⟨106, some "Frank", "Laptop", "Electronics", some 1200, 1, "2023-10-02"⟩

/-- The full six-row batch of `generate_dummy_data`. -/
def dummy_batch : List Record :=
  [sampleRow101, sampleRow102, sampleRow103, sampleRow104, sampleRow105,
   sampleRow106]

/-- A record with a present customer name but missing (`NaN`) price. -/
def sampleRow107 : Record :=
  ⟨107, some "Grace", "Webcam", "Electronics", none, 2, "2023-10-03"⟩

/-- Witness for `C2_dimension` on the dummy batch: the first two dimension
rows are in first-occurrence order and the first carries `product_id = 1`. -/
theorem C2_witness :
    ∃ (hi : (0 : Nat) < (dim_product (df_clean dummy_batch)).length)
      (hj : (1 : Nat) < (dim_product (df_clean dummy_batch)).length),
      List.indexOf (dimKey ((dim_product (df_clean dummy_batch)).get ⟨0, hi⟩))
          ((df_clean dummy_batch).map recordKey) <
        List.indexOf (dimKey ((dim_product (df_clean dummy_batch)).get ⟨1, hj⟩))
          ((df_clean dummy_batch).map recordKey) ∧
      ((dim_product (df_clean dummy_batch)).get ⟨0, hi⟩).product_id = 0 + 1 := by
  refine ⟨by decide, by decide, ?_, ?_⟩
  · exact (C2_dimension dummy_batch).2.2.2.1 0 1 (by decide) (by decide)
      (by decide)
  · exact (C2_dimension dummy_batch).2.2.2.2.1 0 (by decide)

/-- Witness for `C3_fact_join` at row 101 of the §8 example batch. -/
theorem C3_witness :
    ∃ f : FactRow,
      (transform_and_model_data [sampleRow101, sampleRow103, sampleRow105]).2[0]? =
        some f ∧
      ∃! d, d ∈ (transform_and_model_data
          [sampleRow101, sampleRow103, sampleRow105]).1 ∧
        dimKey d = recordKey sampleRow101 ∧ f.product_id = some d.product_id :=
  (C3_fact_join [sampleRow101, sampleRow103, sampleRow105]).2 0 sampleRow101
    (by decide)

/-- Witness for `C5_total_amount` at row 101: `1200 × 1` is in the int64
range, so the total is the exact product. -/
theorem C5_witness :
    ∃ f : FactRow,
      (transform_and_model_data [sampleRow101, sampleRow103, sampleRow105]).2[0]? =
        some f ∧
      f.total_amount = total_amount sampleRow101 ∧
      f.total_amount = some (int64wrap (1200 * sampleRow101.quantity)) ∧
      (-(2 ^ 63) ≤ 1200 * sampleRow101.quantity →
        1200 * sampleRow101.quantity < 2 ^ 63 →
        f.total_amount = some (1200 * sampleRow101.quantity)) ∧
      f.order_id = sampleRow101.order_id ∧
      f.quantity = sampleRow101.quantity :=
  C5_total_amount [sampleRow101, sampleRow103, sampleRow105] 0 sampleRow101
    1200 (by decide) rfl

/-- A valid record whose exact product `price × quantity = 2^62 × 4 = 2^64`
overflows int64; numpy int64 arithmetic yields `0` silently. -/
def overflowRow : Record :=
  ⟨201, some "Heidi", "Cluster", "Hardware", some (2 ^ 62), 4, "2023-10-03"⟩

/-- **C5 counterexample**: `total_amount` is not always the exact product.
On a batch whose single valid record has `price = 2^62` and
`quantity = 4` (an integer-typed, NaN-free column, so the int64 path),
the fact row's `total_amount` is `0`, not the exact `2^64`. -/
theorem C5_counterexample :
    ∃ f : FactRow,
      (transform_and_model_data [overflowRow]).2[0]? = some f ∧
      overflowRow.price = some (2 ^ 62) ∧
      f.total_amount = some 0 ∧
      ((2 ^ 62 : Int) * overflowRow.quantity = 2 ^ 64) ∧
      f.total_amount ≠ some ((2 ^ 62 : Int) * overflowRow.quantity) :=
  ⟨⟨201, "2023-10-03", some "Heidi", some 1, 4, some 0⟩,
    by decide, by decide, rfl, by decide, by decide⟩

/-- Witness for `C10_missing_price_valid` on a one-row batch with missing
price. -/
theorem C10_witness :
    sampleRow107 ∈ df_clean [sampleRow107] ∧
    recordKey sampleRow107 ∈
      (transform_and_model_data [sampleRow107]).1.map dimKey ∧
    ∃ f ∈ (transform_and_model_data [sampleRow107]).2,
      f.order_id = sampleRow107.order_id ∧ f.product_id.isSome = true :=
  C10_missing_price_valid [sampleRow107] sampleRow107 (by decide) rfl rfl

/-- **C7**: when the source cannot be read (`extract_data` returns
`None`), the run stops before any transform: the result is a normal
return with the sink state untouched — nothing is written to the
quarantine or storage sinks. -/
theorem C7_source_failure_aborts (env : Env) (s : SinkState)
    (h : env.source = none) :
    run_pipeline env s = Except.ok s := by
  unfold run_pipeline extract_data
  rw [h]

/-- Witness for `C7_source_failure_aborts` with all sinks healthy and an
empty starting sink state. -/
theorem C7_witness :
    run_pipeline ⟨none, true, true, true⟩ ⟨none, none, none⟩ =
      Except.ok ⟨none, none, none⟩ :=
  C7_source_failure_aborts ⟨none, true, true, true⟩ ⟨none, none, none⟩ rfl

/-- **C8 counterexample**: a failing storage write is *not* surfaced to
the caller.  With the fact-table write failing, the run still returns
normally (`Except.ok`): `load_data` catches the exception at lines
100-101 and only logs it.  The returned state also shows the failure
really happened (the fact table is unwritten) while the earlier dimension
write is kept. -/
theorem C8_counterexample :
    run_pipeline ⟨some [sampleRow101], true, true, false⟩ ⟨none, none, none⟩ =
      Except.ok ⟨none, some [⟨"Laptop", "Electronics", some 1200, 1⟩], none⟩ ∧
    ∀ e : Unit,
      run_pipeline ⟨some [sampleRow101], true, true, false⟩ ⟨none, none, none⟩ ≠
        Except.error e := by
  constructor
  · rfl
  · intro e h
    exact Except.noConfusion h

/-- **C8 (amended)**: the core never retries a sink write.  A *storage*
write failure is caught and logged by `load_data`, which returns
normally — the failure is swallowed, not surfaced — and an earlier
successful dimension write is kept with no rollback.  A *quarantine*
write failure, by contrast, is uncaught and propagates, aborting the
run. -/
theorem C8_amended_sink_failure (env : Env) (df : List Record)
    (s : SinkState) (dim : List DimRow) (fact : List FactRow) :
    (∃ s2, load_data env dim fact s = Except.ok s2) ∧
    (env.dimOk = true → env.factOk = false →
      load_data env dim fact s =
        Except.ok { s with dim_product_table := some dim }) ∧
    (env.source = some df → env.quarantineOk = false →
      df_quarantine df ≠ [] →
      run_pipeline env s = Except.error ()) := by
  refine ⟨?_, ?_, ?_⟩
  · unfold load_data
    cases hd : env.dimOk <;> cases hf : env.factOk <;> simp
  · intro hd hf
    unfold load_data
    rw [hd, hf]
    simp
  · intro hs hq hne
    have hempty : (df_quarantine df).isEmpty = false := by
      cases h : df_quarantine df
      · exact absurd h hne
      · rfl
    have ht : transform_run env df s = Except.error () := by
      unfold transform_run
      simp only [hempty, hq]
      rfl
    unfold run_pipeline extract_data
    rw [hs]
    simp only [ht]
    rfl

/-- Witness for `C8_amended_sink_failure`: quarantine sink down, fact
write failing, one all-bad row. -/
theorem C8_amended_witness :
    (∃ s2, load_data ⟨some [sampleRow105], false, true, false⟩ [] []
      ⟨none, none, none⟩ = Except.ok s2) ∧
    (load_data ⟨some [sampleRow105], false, true, false⟩ [] []
      ⟨none, none, none⟩ = Except.ok ⟨none, some [], none⟩) ∧
    (run_pipeline ⟨some [sampleRow105], false, true, false⟩
      ⟨none, none, none⟩ = Except.error ()) := by
  obtain ⟨h1, h2, h3⟩ := C8_amended_sink_failure
    ⟨some [sampleRow105], false, true, false⟩ [sampleRow105]
    ⟨none, none, none⟩ [] []
  exact ⟨h1, h2 rfl rfl, h3 rfl rfl (by decide)⟩
